import Mathlib

/-!
Shallow embedding of `src/index.js` of the `pr-retry` repository: a retry
orchestrator (`retrier`) that repeatedly invokes a subject promise, routing
each failure through a retry-decision function, together with the policy
resolver (validation of a policy descriptor against a registry of predefined
retry functions) and the built-in `constant_timer_retry` policy.

JavaScript numbers are modelled as rationals (`ℚ`), JS property bags as
association lists, promise results as `Except`, and the asynchronous retry
loop as a fuel-indexed recursive function that also reports how many times
the subject was invoked and which delays were scheduled.
-/

namespace PrRetry

/-- A JavaScript value, as far as the resolver's `typeof` and truthiness
checks observe it.  Numbers are rationals (JS doubles, no NaN needed here). -/
inductive JSVal where
  | num (q : ℚ)
  | str (s : String)
  | boolv (b : Bool)
  | undefv
  | nullv
  deriving DecidableEq, Repr

/-- JavaScript `typeof` on a `JSVal`. -/
def typeofV : JSVal → String
  | .num _ => "number"
  | .str _ => "string"
  | .boolv _ => "boolean"
  | .undefv => "undefined"
  | .nullv => "object"

/-- JavaScript truthiness of a `JSVal` (`if (v)`): `0`, the empty string,
`false`, `undefined` and `null` are falsy. -/
def truthy : JSVal → Bool
  | .num q => decide (q ≠ 0)
  | .str s => decide (s ≠ "")
  | .boolv b => b
  | .undefv => false
  | .nullv => false

/-- A JS object used as a named-parameter bag: an association list from
property names to values. -/
abbrev ParamObj := List (String × JSVal)

/-- JS property access `o[k]`: the stored value, or `undefined` when the key
is absent. -/
def lookupJS (o : ParamObj) (k : String) : JSVal := (o.lookup k).getD .undefv

/-- The `retry_controller` argument of `retrier` as the validation code at
`src/index.js:27-53` discriminates it: a function, an object (its keys each
mapping to a parameter bag), or some other primitive value. -/
inductive RetryController where
  | func
  | objd (entries : List (String × ParamObj))
  | prim (v : JSVal)

/-- The errors thrown by the validation block of `retrier`
(`src/index.js:32,41,46,52`). -/
inductive ResolveError where
  | unknownPolicy (name : String)
  | missingParameter (policy key : String)
  | typeMismatch (policy key actual expected : String)
  | invalidDescriptor
  deriving DecidableEq, Repr

/-- The registry `retrier.retry_fn` (`src/index.js:91-99`): policy name to
ordered parameter specifications (name, expected `typeof` string).  Only
`constant_timer_retry` is registered. -/
def registry : List (String × List (String × String)) :=
  [("constant_timer_retry",
    [("x_ms_between_retries", "number"), ("n_retries", "number")])]

/-- The `params.forEach` validation loop (`src/index.js:35-48`): for each
declared parameter in order, check `retry_controller[name][key]` for
truthiness (falsy, including an absent key, throws the missing-property
error), then compare `typeof` with the declared expected type, collecting
the values into `arg_vals`. -/
def validateParams (policy : String) (specs : List (String × String))
    (o : ParamObj) : Except ResolveError (List JSVal) :=
  match specs with
  | [] => .ok []
  | (key, expected) :: rest =>
    let v := lookupJS o key
    if truthy v then
      if typeofV v ≠ expected then
        .error (.typeMismatch policy key (typeofV v) expected)
      else
        (validateParams policy rest o).map (fun vs => v :: vs)
    else
      .error (.missingParameter policy key)

/-- The outcome of descriptor resolution: the caller's own function, or a
predefined policy name together with the positional `arg_vals` handed to its
registered constructor (`src/index.js:49`). -/
inductive Resolved where
  | custom
  | constructed (name : String) (args : List JSVal)
  deriving DecidableEq, Repr

/-- The validation block of `retrier` (`src/index.js:26-53`): a function is
used directly; an object with exactly one key names a registry entry whose
parameters are validated; anything else is an invalid descriptor. -/
def resolve (rc : RetryController) : Except ResolveError Resolved :=
  match rc with
  | .func => .ok .custom
  | .objd [(name, pobj)] =>
    match registry.lookup name with
    | none => .error (.unknownPolicy name)
    | some specs => (validateParams name specs pobj).map (.constructed name ·)
  | .objd _ => .error .invalidDescriptor
  | .prim _ => .error .invalidDescriptor

/-- What a retry-decision function yields on one failure: "proceed" after a
scheduled delay, or "abort" carrying the final rejection reason. -/
inductive DecOut (E : Type) where
  | proceed (delay : ℤ)
  | abort (reason : E)
  deriving DecidableEq, Repr

/-- The state captured by a `constant_timer_retry` closure
(`src/index.js:71-73`): the floored delay and the mutable
`retries_remaining` counter. -/
structure CTState where
  x_ms : ℤ
  retries_remaining : ℤ
  deriving DecidableEq, Repr

/-- The constructor `constant_timer_retry(x_ms_between_retries_, n_retries_)`
(`src/index.js:70-73`): both numeric arguments pass through `Math.floor`
(truncation toward negative infinity) and the counter starts at the floored
retry count. -/
def constant_timer_retry (x n : ℚ) : CTState :=
  ⟨⌊x⌋, ⌊n⌋⟩

/-- One invocation of the decision closure returned by
`constant_timer_retry` (`src/index.js:74-88`): while `retries_remaining != 0`
it resolves ("proceed") after `x_ms` milliseconds and decrements the counter
in the timer callback; at exactly `0` it rejects ("abort") with the failure
reason it was given, unchanged. -/
def ctStep {E : Type} (err : E) (s : CTState) : DecOut E × CTState :=
  if s.retries_remaining ≠ 0 then
    (.proceed s.x_ms, ⟨s.x_ms, s.retries_remaining - 1⟩)
  else
    (.abort err, s)

/-- The recursive promise chain `subject_caller` (`src/index.js:57-65`),
run with `fuel` as the maximal chain depth we unfold.  The subject is
indexed by its attempt number (0-based).  Returns the final settled result
(`none` when the fuel ran out before the chain settled), the number of
subject invocations performed, and the list of delays scheduled by the
decision function, in order. -/
def subject_caller {E A σ : Type} (subject : ℕ → Except E A)
    (dstep : E → σ → DecOut E × σ) :
    ℕ → ℕ → σ → Option (Except E A) × ℕ × List ℤ
  | 0, _, _ => (none, 0, [])
  | fuel + 1, attempt, s =>
    match subject attempt with
    | .ok a => (some (.ok a), 1, [])
    | .error r =>
      match dstep r s with
      | (.abort rr, _) => (some (.error rr), 1, [])
      | (.proceed d, s2) =>
        let rest := subject_caller subject dstep fuel (attempt + 1) s2
        (rest.1, rest.2.1 + 1, d :: rest.2.2)

/-- The whole of `retrier(subject_promise_fn, retry_controller)`
(`src/index.js:23-67`): validate/resolve the controller first (all four
error kinds are thrown here, synchronously), then run `subject_caller`.
A caller-supplied decision function is interpreted by the extra
`custom`/`sc` machine; the only registered constructor is
`constant_timer_retry`, applied to its two validated numeric arguments. -/
def retrier {E A σc : Type} (subject : ℕ → Except E A)
    (custom : E → σc → DecOut E × σc) (sc : σc)
    (rc : RetryController) (fuel : ℕ) :
    Except ResolveError (Option (Except E A) × ℕ × List ℤ) :=
  match resolve rc with
  | .error e => .error e
  | .ok .custom => .ok (subject_caller subject custom fuel 0 sc)
  | .ok (.constructed _ args) =>
    match args with
    | [.num x, .num n] =>
      .ok (subject_caller subject ctStep fuel 0 (constant_timer_retry x n))
    | _ => .error .invalidDescriptor

/-- Number of subject invocations a `retrier` call performs: zero when the
validation block throws (the throw happens before `subject_caller()` is
first entered at `src/index.js:66`). -/
def retrierCalls {E A σc : Type} (subject : ℕ → Except E A)
    (custom : E → σc → DecOut E × σc) (sc : σc)
    (rc : RetryController) (fuel : ℕ) : ℕ :=
  match retrier subject custom sc rc fuel with
  | .error _ => 0
  | .ok out => out.2.1

/-- A malformed policy descriptor in the sense of the documented error
taxonomy: not a function and not a single-key mapping, or naming an
unregistered policy, or declaring a parameter whose key is absent from the
parameter bag or whose value has the wrong runtime type. -/
def MalformedDescriptor (rc : RetryController) : Prop :=
  match rc with
  | .func => False
  | .prim _ => True
  | .objd [(name, pobj)] =>
    registry.lookup name = none ∨
    ∃ specs key expected, registry.lookup name = some specs ∧
      (key, expected) ∈ specs ∧
      (pobj.lookup key = none ∨
        ∃ v, pobj.lookup key = some v ∧ typeofV v ≠ expected)
  | .objd _ => True

lemma validateParams_error_of_bad (policy : String) (o : ParamObj) :
    ∀ (specs : List (String × String)) (key expected : String),
      (key, expected) ∈ specs →
      (o.lookup key = none ∨ ∃ v, o.lookup key = some v ∧ typeofV v ≠ expected) →
      ∃ e, validateParams policy specs o = .error e := by
  intro specs
  induction specs with
  | nil => intro key expected hmem; exact absurd hmem (List.not_mem_nil _)
  | cons head rest ih =>
    obtain ⟨k, t⟩ := head
    intro key expected hmem hbad
    by_cases ht : truthy (lookupJS o k)
    · by_cases hty : typeofV (lookupJS o k) ≠ t
      · exact ⟨.typeMismatch policy k (typeofV (lookupJS o k)) t,
          by simp [validateParams, ht, hty]⟩
      · have hne : (key, expected) ≠ (k, t) := by
          intro heq
          rw [Prod.mk.injEq] at heq
          obtain ⟨rfl, rfl⟩ := heq
          rcases hbad with hnone | ⟨v, hv, hvty⟩
          · simp [lookupJS, hnone, truthy] at ht
          · rw [lookupJS, hv] at ht hty
            exact hty hvty
        have hmem2 : (key, expected) ∈ rest := by
          rcases List.mem_cons.1 hmem with h | h
          · exact absurd h hne
          · exact h
        obtain ⟨e, he⟩ := ih key expected hmem2 hbad
        exact ⟨e, by simp [validateParams, ht, hty, he, Except.map]⟩
    · exact ⟨.missingParameter policy k, by simp [validateParams, ht]⟩

lemma resolve_error_of_malformed (rc : RetryController)
    (h : MalformedDescriptor rc) : ∃ e, resolve rc = .error e := by
  match rc with
  | .func => exact absurd h id
  | .prim v => exact ⟨_, rfl⟩
  | .objd [] => exact ⟨_, rfl⟩
  | .objd [(name, pobj)] =>
    rcases h with hnone | ⟨specs, key, expected, hspecs, hmem, hbad⟩
    · exact ⟨.unknownPolicy name, by simp [resolve, hnone]⟩
    · obtain ⟨e, he⟩ := validateParams_error_of_bad name pobj specs key expected hmem hbad
      exact ⟨e, by simp [resolve, hspecs, he, Except.map]⟩
  | .objd (a :: b :: rest) => exact ⟨_, rfl⟩

/-- C3: every malformed descriptor (wrong shape, unknown policy name,
missing or mistyped parameter) makes `retrier` fail during its synchronous
validation block, and the subject operation is invoked zero times. -/
theorem malformed_descriptor_fails_before_subject {E A σc : Type}
    (subject : ℕ → Except E A) (custom : E → σc → DecOut E × σc) (sc : σc)
    (fuel : ℕ) (rc : RetryController) (h : MalformedDescriptor rc) :
    (∃ e, retrier subject custom sc rc fuel = .error e) ∧
      retrierCalls subject custom sc rc fuel = 0 := by
  obtain ⟨e, he⟩ := resolve_error_of_malformed rc h
  refine ⟨⟨e, ?_⟩, ?_⟩
  · simp [retrier, he]
  · simp [retrierCalls, retrier, he]

/-- Witness for C3 at a concrete mistyped-parameter descriptor. -/
theorem malformed_descriptor_fails_before_subject_witness :
    MalformedDescriptor (.objd [("constant_timer_retry",
        [("x_ms_between_retries", JSVal.str "fast"), ("n_retries", JSVal.num 3)])]) ∧
    (∃ e, retrier (fun _ => (Except.error 0 : Except ℕ ℕ))
        (fun e (s : Unit) => (DecOut.abort e, s)) ()
        (.objd [("constant_timer_retry",
          [("x_ms_between_retries", JSVal.str "fast"), ("n_retries", JSVal.num 3)])]) 9
        = .error e) ∧
    retrierCalls (fun _ => (Except.error 0 : Except ℕ ℕ))
        (fun e (s : Unit) => (DecOut.abort e, s)) ()
        (.objd [("constant_timer_retry",
          [("x_ms_between_retries", JSVal.str "fast"), ("n_retries", JSVal.num 3)])]) 9
        = 0 := by
  have hm : MalformedDescriptor (.objd [("constant_timer_retry",
      [("x_ms_between_retries", JSVal.str "fast"), ("n_retries", JSVal.num 3)])]) := by
    refine Or.inr ⟨_, "x_ms_between_retries", "number", rfl, by simp [registry], ?_⟩
    exact Or.inr ⟨JSVal.str "fast", rfl, by simp [typeofV]⟩
  have h := malformed_descriptor_fails_before_subject
    (fun _ => (Except.error 0 : Except ℕ ℕ))
    (fun e (s : Unit) => (DecOut.abort e, s)) () 9 _ hm
  exact ⟨hm, h.1, h.2⟩

/-- C2 (code behaviour at the failing input): a parameter that is present
with the declared type `number` but value `0` is reported by the code as a
missing property, because `src/index.js:37` tests the value for truthiness
rather than the key for presence. -/
theorem present_zero_param_reported_missing :
    resolve (.objd [("constant_timer_retry",
        [("x_ms_between_retries", JSVal.num 0), ("n_retries", JSVal.num 3)])])
      = .error (.missingParameter "constant_timer_retry" "x_ms_between_retries") :=
  rfl

/-- C7 (amended): both construction parameters of `constant_timer_retry`
are floored — truncated toward negative infinity, the value being the
greatest integer not exceeding the input. -/
theorem constant_timer_retry_floors (x n : ℚ) :
    ((constant_timer_retry x n).x_ms : ℚ) ≤ x ∧
      x < (constant_timer_retry x n).x_ms + 1 ∧
      ((constant_timer_retry x n).retries_remaining : ℚ) ≤ n ∧
      n < (constant_timer_retry x n).retries_remaining + 1 := by
  exact ⟨Int.floor_le x, Int.lt_floor_add_one x, Int.floor_le n, Int.lt_floor_add_one n⟩

/-- C7 (counterexample): the fractional input `-0.5` is floored to `-1`,
not truncated toward zero to `0`. -/
theorem constant_timer_retry_neg_half :
    (constant_timer_retry 17 (-(1 : ℚ)/2)).retries_remaining = -1 ∧
      (constant_timer_retry 17 (-(1 : ℚ)/2)).retries_remaining ≠ 0 := by
  constructor
  · show ⌊(-(1 : ℚ)/2)⌋ = -1
    norm_num [Int.floor_eq_iff]
  · show ⌊(-(1 : ℚ)/2)⌋ ≠ 0
    norm_num [Int.floor_eq_iff]

lemma subject_caller_ok {E A σ : Type} (subject : ℕ → Except E A)
    (dstep : E → σ → DecOut E × σ) (fuel a : ℕ) (s : σ) (v : A)
    (hok : subject a = .ok v) :
    subject_caller subject dstep (fuel + 1) a s = (some (.ok v), 1, []) := by
  simp only [subject_caller, hok]

lemma subject_caller_abort {E A σ : Type} (subject : ℕ → Except E A)
    (dstep : E → σ → DecOut E × σ) (fuel a : ℕ) (s s2 : σ) (r rp : E)
    (hfail : subject a = .error r) (habort : dstep r s = (.abort rp, s2)) :
    subject_caller subject dstep (fuel + 1) a s = (some (.error rp), 1, []) := by
  simp only [subject_caller, hfail, habort]

lemma subject_caller_proceed {E A σ : Type} (subject : ℕ → Except E A)
    (dstep : E → σ → DecOut E × σ) (fuel a : ℕ) (s s2 : σ) (r : E) (d : ℤ)
    (hfail : subject a = .error r) (hproceed : dstep r s = (.proceed d, s2)) :
    subject_caller subject dstep (fuel + 1) a s =
      ((subject_caller subject dstep fuel (a + 1) s2).1,
        (subject_caller subject dstep fuel (a + 1) s2).2.1 + 1,
        d :: (subject_caller subject dstep fuel (a + 1) s2).2.2) := by
  simp only [subject_caller, hfail, hproceed]

lemma ctStep_proceed {E : Type} (r : E) (s : CTState)
    (h : s.retries_remaining ≠ 0) :
    ctStep r s = (.proceed s.x_ms, ⟨s.x_ms, s.retries_remaining - 1⟩) := by
  simp only [ctStep, if_pos h]

lemma ctStep_abort {E : Type} (r : E) (s : CTState)
    (h : s.retries_remaining = 0) :
    ctStep r s = (.abort r, s) := by
  simp [ctStep, h]

lemma subject_caller_allfail {E A : Type} (r : ℕ → E) (xm : ℤ) (N : ℕ) :
    ∀ (a m : ℕ),
      subject_caller (A := A) (fun i => .error (r i)) ctStep (N + m + 1) a ⟨xm, (N : ℤ)⟩ =
        (some (.error (r (a + N))), N + 1, List.replicate N xm) := by
  induction N with
  | zero =>
    intro a m
    rw [subject_caller_abort (fun i => .error (r i)) ctStep (0 + m) a _ _ (r a) (r a)
      rfl (ctStep_abort (r a) _ rfl)]
    simp
  | succ N ih =>
    intro a m
    have h1 : N + 1 + m + 1 = (N + m + 1) + 1 := by omega
    rw [h1]
    have hne : (⟨xm, ((N + 1 : ℕ) : ℤ)⟩ : CTState).retries_remaining ≠ 0 := by
      show ((N + 1 : ℕ) : ℤ) ≠ 0
      exact_mod_cast Nat.succ_ne_zero N
    rw [subject_caller_proceed (fun i => .error (r i)) ctStep (N + m + 1) a _ _ (r a) xm
      rfl (ctStep_proceed (r a) _ hne)]
    have h2 : ((N + 1 : ℕ) : ℤ) - 1 = (N : ℤ) := by push_cast; ring
    show (let rest := subject_caller (fun i => .error (r i)) ctStep (N + m + 1) (a + 1)
            ⟨xm, ((N + 1 : ℕ) : ℤ) - 1⟩
          (rest.1, rest.2.1 + 1, xm :: rest.2.2)) = _
    rw [h2, ih (a + 1) m]
    have h3 : a + 1 + N = a + (N + 1) := by omega
    simp [h3, List.replicate_succ]

/-- C1: on a constant-delay policy constructed with `maxRetries = N` and a
subject that fails on every attempt, the retry loop invokes the subject
exactly `N + 1` times and settles on the failure reason of the last attempt
(attempt index `N`), whatever surplus fuel the loop is given. -/
theorem allfail_invokes_n_plus_one {E A : Type} (N m : ℕ) (x : ℚ) (r : ℕ → E) :
    subject_caller (A := A) (fun i => .error (r i)) ctStep (N + m + 1) 0
        (constant_timer_retry x N) =
      (some (.error (r N)), N + 1, List.replicate N ⌊x⌋) := by
  have hc : constant_timer_retry x N = ⟨⌊x⌋, (N : ℤ)⟩ := by
    simp [constant_timer_retry]
  rw [hc]
  simpa using subject_caller_allfail (A := A) r ⌊x⌋ N 0 m

/-- C4: with `maxRetries = 0`, any subject failing on its first attempt is
invoked exactly once, no delay is scheduled, and that first failure reason
is propagated. -/
theorem max_retries_zero_single_attempt {E A : Type} (m : ℕ) (x : ℚ)
    (subject : ℕ → Except E A) (r0 : E) (h : subject 0 = .error r0) :
    subject_caller subject ctStep (m + 1) 0 (constant_timer_retry x 0) =
      (some (.error r0), 1, []) := by
  have hc : constant_timer_retry x 0 = ⟨⌊x⌋, 0⟩ := by
    simp [constant_timer_retry]
  rw [hc]
  simp [subject_caller, ctStep, h]

/-- Witness for C4: a subject that always rejects with reason `7`, a
constant-delay policy with delay `100` and `maxRetries = 0`. -/
theorem max_retries_zero_single_attempt_witness :
    (fun _ : ℕ => (Except.error 7 : Except ℕ ℕ)) 0 = .error 7 ∧
    subject_caller (fun _ : ℕ => (Except.error 7 : Except ℕ ℕ)) ctStep (0 + 1) 0
        (constant_timer_retry 100 0) = (some (.error 7), 1, []) :=
  ⟨rfl, max_retries_zero_single_attempt 0 100 _ 7 rfl⟩

lemma subject_caller_fail_then_ok {E A : Type} (subject : ℕ → Except E A)
    (r : ℕ → E) (v : A) (K : ℕ) :
    ∀ (a m : ℕ) (xm rem : ℤ), (K : ℤ) ≤ rem →
      (∀ i, i < K → subject (a + i) = .error (r (a + i))) →
      subject (a + K) = .ok v →
      subject_caller subject ctStep (K + m + 1) a ⟨xm, rem⟩ =
        (some (.ok v), K + 1, List.replicate K xm) := by
  induction K with
  | zero =>
    intro a m xm rem _ _ hsucc
    have h0 : subject a = .ok v := by simpa using hsucc
    rw [subject_caller_ok subject ctStep (0 + m) a _ v h0]
    simp
  | succ K ih =>
    intro a m xm rem hrem hfail hsucc
    have h1 : K + 1 + m + 1 = (K + m + 1) + 1 := by omega
    rw [h1]
    have hne : (⟨xm, rem⟩ : CTState).retries_remaining ≠ 0 := by
      show rem ≠ 0
      have : (0 : ℤ) < rem := lt_of_lt_of_le (by exact_mod_cast Nat.succ_pos K) hrem
      omega
    have hfa : subject a = .error (r a) := by simpa using hfail 0 (Nat.succ_pos K)
    rw [subject_caller_proceed subject ctStep (K + m + 1) a _ _ (r a) xm hfa
      (ctStep_proceed (r a) _ hne)]
    have hrec := ih (a + 1) m xm (rem - 1)
      (by push_cast at hrem ⊢; omega)
      (fun i hi => by
        have h4 := hfail (i + 1) (by omega)
        have h5 : a + (i + 1) = a + 1 + i := by omega
        rw [h5] at h4
        exact h4)
      (by
        have h3 : a + 1 + K = a + (K + 1) := by omega
        rw [h3]; exact hsucc)
    show (let rest := subject_caller subject ctStep (K + m + 1) (a + 1) ⟨xm, rem - 1⟩
          (rest.1, rest.2.1 + 1, xm :: rest.2.2)) = _
    rw [hrec]
    simp [List.replicate_succ]

/-- C5: with `maxRetries = N` and a subject failing on its first `K`
attempts (`K ≤ N`) then succeeding, the subject is invoked exactly `K + 1`
times and the loop settles on that final attempt's success value. -/
theorem fail_k_then_succeed {E A : Type} (N K m : ℕ) (hK : K ≤ N) (x : ℚ)
    (subject : ℕ → Except E A) (r : ℕ → E) (v : A)
    (hfail : ∀ i, i < K → subject i = .error (r i))
    (hsucc : subject K = .ok v) :
    subject_caller subject ctStep (K + m + 1) 0 (constant_timer_retry x N) =
      (some (.ok v), K + 1, List.replicate K ⌊x⌋) := by
  have hc : constant_timer_retry x N = ⟨⌊x⌋, (N : ℤ)⟩ := by
    simp [constant_timer_retry]
  rw [hc]
  exact subject_caller_fail_then_ok subject r v K 0 m ⌊x⌋ (N : ℤ)
    (by exact_mod_cast hK)
    (fun i hi => by simpa using hfail i hi)
    (by simpa using hsucc)

/-- Witness for C5: `K = 2` failures then success `99`, `maxRetries = 3`. -/
theorem fail_k_then_succeed_witness :
    2 ≤ 3 ∧
    (∀ i, i < 2 → (fun j => if j < 2 then (Except.error j : Except ℕ ℕ) else .ok 99) i
        = .error i) ∧
    (fun j => if j < 2 then (Except.error j : Except ℕ ℕ) else .ok 99) 2 = .ok 99 ∧
    subject_caller (fun j => if j < 2 then (Except.error j : Except ℕ ℕ) else .ok 99)
        ctStep (2 + 4 + 1) 0 (constant_timer_retry 50 3) =
      (some (.ok 99), 2 + 1, List.replicate 2 ⌊(50 : ℚ)⌋) := by
  refine ⟨by omega, ?_, rfl, ?_⟩
  · intro i hi
    interval_cases i <;> rfl
  · exact fail_k_then_succeed 3 2 4 (by omega) 50 _ (fun i => i) 99
      (fun i hi => by interval_cases i <;> rfl) rfl

/-- C6: whenever the subject's attempt fails and the decision function
aborts with reason `rp` (possibly different from the failure reason it was
given), the loop settles immediately on exactly `rp`, after that single
additional subject invocation and with no further delay scheduled. -/
theorem abort_reason_propagated {E A σ : Type} (subject : ℕ → Except E A)
    (dstep : E → σ → DecOut E × σ) (fuel a : ℕ) (s s2 : σ) (r rp : E)
    (hfail : subject a = .error r) (habort : dstep r s = (.abort rp, s2)) :
    subject_caller subject dstep (fuel + 1) a s = (some (.error rp), 1, []) := by
  simp [subject_caller, hfail, habort]

/-- Witness for C6: a decision function substituting reason `e + 5` for the
failure reason `e = 1` it was given. -/
theorem abort_reason_propagated_witness :
    (fun _ : ℕ => (Except.error 1 : Except ℕ ℕ)) 0 = .error 1 ∧
    (fun (e : ℕ) (s : Unit) => (DecOut.abort (e + 5), s)) 1 () = (DecOut.abort 6, ()) ∧
    subject_caller (fun _ : ℕ => (Except.error 1 : Except ℕ ℕ))
        (fun (e : ℕ) (s : Unit) => (DecOut.abort (e + 5), s)) (3 + 1) 0 () =
      (some (.error 6), 1, []) :=
  ⟨rfl, rfl, abort_reason_propagated _ _ 3 0 () () 1 6 rfl rfl⟩

/-- Iterated invocation of a `constant_timer_retry` decision closure on a
sequence of failure reasons: the state after `k` invocations. -/
def ctIter {E : Type} (r : ℕ → E) (s : CTState) : ℕ → CTState
  | 0 => s
  | k + 1 => (ctStep (r k) (ctIter r s k)).2

lemma ctIter_of_neg {E : Type} (r : ℕ → E) (xm n : ℤ) (hn : n < 0) (k : ℕ) :
    ctIter r ⟨xm, n⟩ k = ⟨xm, n - k⟩ := by
  induction k with
  | zero => simp [ctIter]
  | succ k ih =>
    have hne : ((⟨xm, n - k⟩ : CTState)).retries_remaining ≠ 0 := by
      show n - (k : ℤ) ≠ 0
      omega
    rw [ctIter, ih, ctStep_proceed (r k) _ hne]
    show (⟨xm, n - k - 1⟩ : CTState) = _
    have : n - (k : ℤ) - 1 = n - ((k : ℕ) + 1 : ℕ) := by push_cast; ring
    rw [this]

lemma subject_caller_neg_never_settles {E A : Type} (r : ℕ → E) (xm : ℤ) :
    ∀ (fuel a : ℕ) (n : ℤ), n < 0 →
      subject_caller (A := A) (fun i => .error (r i)) ctStep fuel a ⟨xm, n⟩ =
        (none, fuel, List.replicate fuel xm) := by
  intro fuel
  induction fuel with
  | zero => intro a n hn; simp [subject_caller]
  | succ fuel ih =>
    intro a n hn
    have hne : ((⟨xm, n⟩ : CTState)).retries_remaining ≠ 0 := by
      show n ≠ 0
      omega
    rw [subject_caller_proceed (fun i => .error (r i)) ctStep fuel a _ _ (r a) xm
      rfl (ctStep_proceed (r a) _ hne)]
    show (let rest := subject_caller (fun i => .error (r i)) ctStep fuel (a + 1) ⟨xm, n - 1⟩
          (rest.1, rest.2.1 + 1, xm :: rest.2.2)) = _
    rw [ih (a + 1) (n - 1) (by omega)]
    simp [List.replicate_succ]

/-- C8: if the `constant_timer_retry` constructor captured a negative retry
count, the counter never equals zero again (after `k` invocations it is
`n - k`), every invocation signals "proceed", and with an always-failing
subject the retry loop never settles however much fuel it is given,
spending every unit of fuel on a further subject invocation. -/
theorem negative_retry_count_never_aborts {E A : Type} (xm n : ℤ) (hn : n < 0)
    (r : ℕ → E) (k fuel : ℕ) :
    (ctIter r (⟨xm, n⟩ : CTState) k).retries_remaining = n - k ∧
      (ctIter r (⟨xm, n⟩ : CTState) k).retries_remaining ≠ 0 ∧
      (ctStep (r k) (ctIter r (⟨xm, n⟩ : CTState) k)).1 = DecOut.proceed xm ∧
      subject_caller (A := A) (fun i => .error (r i)) ctStep fuel 0 ⟨xm, n⟩ =
        (none, fuel, List.replicate fuel xm) := by
  have hit := ctIter_of_neg r xm n hn k
  have hrem : (ctIter r (⟨xm, n⟩ : CTState) k).retries_remaining = n - k := by
    rw [hit]
  have hne : (ctIter r (⟨xm, n⟩ : CTState) k).retries_remaining ≠ 0 := by
    rw [hrem]; omega
  refine ⟨hrem, hne, ?_, subject_caller_neg_never_settles r xm fuel 0 n hn⟩
  rw [ctStep_proceed (r k) _ hne, hit]

/-- Witness for C8 at `n = -1`, two invocations, three units of fuel. -/
theorem negative_retry_count_never_aborts_witness :
    (-1 : ℤ) < 0 ∧
    (ctIter (fun i => i) (⟨5, -1⟩ : CTState) 2).retries_remaining = -1 - 2 ∧
    (ctIter (fun i => i) (⟨5, -1⟩ : CTState) 2).retries_remaining ≠ 0 ∧
    (ctStep ((fun i => i) 2) (ctIter (fun i => i) (⟨5, -1⟩ : CTState) 2)).1 =
      DecOut.proceed 5 ∧
    subject_caller (A := ℕ) (fun i => .error i) ctStep 3 0 ⟨5, -1⟩ =
      (none, 3, List.replicate 3 5) := by
  have h := negative_retry_count_never_aborts (A := ℕ) 5 (-1) (by omega)
    (fun i => i) 2 3
  exact ⟨by omega, h.1, h.2.1, h.2.2.1, h.2.2.2⟩

/-- The process heap of live `constant_timer_retry` closures: each cell is
one closure's private `retries_remaining` variable.  Calling the registered
constructor (as `retrier` does at `src/index.js:49` on every resolution)
allocates a fresh cell. -/
abbrev CounterHeap := List ℤ

/-- Allocate a fresh `retries_remaining` cell initialised to `n`, returning
its identity and the extended heap. -/
def allocCounter (n : ℤ) (h : CounterHeap) : ℕ × CounterHeap :=
  (h.length, h ++ [n])

/-- Read a counter cell. -/
def counterGet (h : CounterHeap) (c : ℕ) : ℤ := h.getD c 0

/-- One invocation of the decision closure owning cell `c`, acting on the
shared heap: the heap-passing form of `ctStep`. -/
def ctStepH {E : Type} (xm : ℤ) (c : ℕ) (err : E) (h : CounterHeap) :
    DecOut E × CounterHeap :=
  if counterGet h c ≠ 0 then
    (.proceed xm, h.set c (counterGet h c - 1))
  else
    (.abort err, h)

/-- Iterate the closure owning cell `c` over `k` failure reasons. -/
def ctIterH {E : Type} (xm : ℤ) (c : ℕ) (r : ℕ → E) (h : CounterHeap) :
    ℕ → CounterHeap
  | 0 => h
  | k + 1 => (ctStepH xm c (r k) (ctIterH xm c r h k)).2

lemma counterGet_set_ne (h : CounterHeap) (c c2 : ℕ) (v : ℤ) (hne : c ≠ c2) :
    counterGet (h.set c v) c2 = counterGet h c2 := by
  simp [counterGet, List.getD_eq_getElem?_getD, List.getElem?_set_ne hne]

lemma counterGet_ctStepH {E : Type} (xm : ℤ) (c c2 : ℕ) (err : E)
    (h : CounterHeap) (hne : c ≠ c2) :
    counterGet (ctStepH xm c err h).2 c2 = counterGet h c2 := by
  by_cases h0 : counterGet h c ≠ 0
  · simp only [ctStepH, if_pos h0]
    exact counterGet_set_ne h c c2 _ hne
  · simp only [ctStepH, if_neg h0]

lemma counterGet_ctIterH {E : Type} (xm : ℤ) (c c2 : ℕ) (r : ℕ → E)
    (h : CounterHeap) (hne : c ≠ c2) (k : ℕ) :
    counterGet (ctIterH xm c r h k) c2 = counterGet h c2 := by
  induction k with
  | zero => rfl
  | succ k ih => rw [ctIterH, counterGet_ctStepH xm c c2 _ _ hne, ih]

/-- C9: resolving the same constant-delay descriptor twice allocates two
distinct counter cells, and invoking the first decision closure any number
of times neither changes the second closure's counter nor its
proceed/abort answer (and symmetrically). -/
theorem resolutions_have_independent_counters {E : Type} (n : ℤ) (h0 : CounterHeap)
    (xm : ℤ) (r : ℕ → E) (k k2 : ℕ) (err : E) :
    (allocCounter n h0).1 ≠ (allocCounter n (allocCounter n h0).2).1 ∧
    counterGet
        (ctIterH xm (allocCounter n h0).1 r
          (allocCounter n (allocCounter n h0).2).2 k)
        (allocCounter n (allocCounter n h0).2).1 =
      counterGet (allocCounter n (allocCounter n h0).2).2
        (allocCounter n (allocCounter n h0).2).1 ∧
    (ctStepH xm (allocCounter n (allocCounter n h0).2).1 err
        (ctIterH xm (allocCounter n h0).1 r
          (allocCounter n (allocCounter n h0).2).2 k)).1 =
      (ctStepH xm (allocCounter n (allocCounter n h0).2).1 err
        (allocCounter n (allocCounter n h0).2).2).1 ∧
    counterGet
        (ctIterH xm (allocCounter n (allocCounter n h0).2).1 r
          (allocCounter n (allocCounter n h0).2).2 k2)
        (allocCounter n h0).1 =
      counterGet (allocCounter n (allocCounter n h0).2).2 (allocCounter n h0).1 := by
  have hne : (allocCounter n h0).1 ≠ (allocCounter n (allocCounter n h0).2).1 := by
    simp [allocCounter]
  have hpres := counterGet_ctIterH xm (allocCounter n h0).1
    (allocCounter n (allocCounter n h0).2).1 r
    (allocCounter n (allocCounter n h0).2).2 hne k
  refine ⟨hne, hpres, ?_, ?_⟩
  · by_cases hc : counterGet (allocCounter n (allocCounter n h0).2).2
        (allocCounter n (allocCounter n h0).2).1 ≠ 0
    · simp only [ctStepH, hpres, if_pos hc]
    · simp only [ctStepH, hpres, if_neg hc]
  · exact counterGet_ctIterH xm (allocCounter n (allocCounter n h0).2).1
      (allocCounter n h0).1 r (allocCounter n (allocCounter n h0).2).2
      (Ne.symm hne) k2

/-- C10 (counterexample): a parameter bag holding every declared parameter
with a value of the declared type (`x_ms_between_retries` is the number
`0`) plus an extra key still fails resolution, because the truthiness test
at `src/index.js:37` rejects the present value `0`. -/
theorem declared_params_present_yet_resolution_fails :
    resolve (.objd [("constant_timer_retry",
        [("x_ms_between_retries", JSVal.num 0), ("n_retries", JSVal.num 3),
          ("extra", JSVal.str "ignored")])])
      = .error (.missingParameter "constant_timer_retry" "x_ms_between_retries") :=
  rfl

/-- C10 (amended): when the parameter bag holds every declared parameter
with a truthy value of the declared type (for the two numeric parameters:
nonzero numbers), resolution succeeds whatever additional keys the bag
carries, and exactly the declared parameters' values are handed positionally,
in declared order, to the registered `constant_timer_retry` constructor. -/
theorem extra_keys_silently_ignored {E A σc : Type} (subject : ℕ → Except E A)
    (custom : E → σc → DecOut E × σc) (sc : σc) (fuel : ℕ)
    (o : ParamObj) (x n : ℚ) (hx0 : x ≠ 0) (hn0 : n ≠ 0)
    (hx : o.lookup "x_ms_between_retries" = some (.num x))
    (hn : o.lookup "n_retries" = some (.num n)) :
    resolve (.objd [("constant_timer_retry", o)]) =
      .ok (.constructed "constant_timer_retry" [.num x, .num n]) ∧
    retrier subject custom sc (.objd [("constant_timer_retry", o)]) fuel =
      .ok (subject_caller subject ctStep fuel 0 (constant_timer_retry x n)) := by
  have hreg : registry.lookup "constant_timer_retry" =
      some [("x_ms_between_retries", "number"), ("n_retries", "number")] := rfl
  have hres : resolve (.objd [("constant_timer_retry", o)]) =
      .ok (.constructed "constant_timer_retry" [.num x, .num n]) := by
    simp only [resolve, hreg]
    simp [validateParams, lookupJS, hx, hn, truthy, hx0, hn0, typeofV, Except.map]
  exact ⟨hres, by simp only [retrier, hres]⟩

/-- Witness for C10 (amended) at a parameter bag carrying an undeclared
extra key `verbose`. -/
theorem extra_keys_silently_ignored_witness :
    (5 : ℚ) ≠ 0 ∧ (3 : ℚ) ≠ 0 ∧
    List.lookup "x_ms_between_retries"
        [("x_ms_between_retries", JSVal.num 5), ("n_retries", JSVal.num 3),
          ("verbose", JSVal.boolv true)] = some (JSVal.num 5) ∧
    List.lookup "n_retries"
        [("x_ms_between_retries", JSVal.num 5), ("n_retries", JSVal.num 3),
          ("verbose", JSVal.boolv true)] = some (JSVal.num 3) ∧
    resolve (.objd [("constant_timer_retry",
        [("x_ms_between_retries", JSVal.num 5), ("n_retries", JSVal.num 3),
          ("verbose", JSVal.boolv true)])]) =
      .ok (.constructed "constant_timer_retry" [JSVal.num 5, JSVal.num 3]) ∧
    retrier (fun _ => (Except.error 0 : Except ℕ ℕ))
        (fun e (s : Unit) => (DecOut.abort e, s)) ()
        (.objd [("constant_timer_retry",
          [("x_ms_between_retries", JSVal.num 5), ("n_retries", JSVal.num 3),
            ("verbose", JSVal.boolv true)])]) 2 =
      .ok (subject_caller (fun _ => (Except.error 0 : Except ℕ ℕ)) ctStep 2 0
        (constant_timer_retry 5 3)) := by
  have h := extra_keys_silently_ignored (fun _ => (Except.error 0 : Except ℕ ℕ))
    (fun e (s : Unit) => (DecOut.abort e, s)) () 2
    [("x_ms_between_retries", JSVal.num 5), ("n_retries", JSVal.num 3),
      ("verbose", JSVal.boolv true)] 5 3 (by norm_num) (by norm_num) rfl rfl
  exact ⟨by norm_num, by norm_num, rfl, rfl, h.1, h.2⟩

end PrRetry
